import Mathlib

/-!
# Verification of the hyperliquid-stats cache materialization pipeline

Shallow embedding of `src/scripts/main.py` (the incremental cache
materialization pipeline) and proofs about its behaviour.

Conventions:
* python floats are modelled as exact rationals (`ℚ`);
* calendar dates are modelled as integer day numbers (`Int`);
* the relational database is modelled as an association list from table
  name to its list of rows;
* a python function that can raise is modelled with `Except`/`Option`,
  and a `try/except` block by a `match` on that value.
-/

namespace HLStats

/-! ## Order-book levels and the slippage engine (`calculate_slippage`) -/

/-- One order-book level: price and size (one entry of the `levels` ladders). -/
structure Level where
  px : ℚ
  sz : ℚ
deriving DecidableEq, Repr

/-- Total notional resting on a ladder: `sum(px * sz)` over its levels. -/
def totalNotional (ls : List Level) : ℚ :=
  (ls.map (fun l => l.px * l.sz)).sum

/-- The accumulation loop of `calculate_slippage` (main.py lines 141-164).
Walks the ask ladder; returns the pair
(`average_executed_price`, `filled_liquidity`).  At each level,
`liquidity = px * sz`; if `filled + liquidity >= N` the loop consumes the
remaining liquidity `N - filled` at this level's price and breaks with
`filled = N`; otherwise it consumes the whole level. -/
def slippageLoop (N : ℚ) : List Level → ℚ → ℚ → ℚ × ℚ
  | [], avg, filled => (avg, filled)
  | l :: rest, avg, filled =>
    if N ≤ filled + l.px * l.sz then
      (avg + ((N - filled) / N) * l.px, N)
    else
      slippageLoop N rest (avg + (l.px * l.sz / N) * l.px) (filled + l.px * l.sz)

/-- `calculate_slippage` (main.py lines 131-172): walk the ask ladder; if the
accumulated liquidity reached the target notional, slippage is
`abs(average_executed_price / mid - 1)`, else the sentinel `1`. -/
def calculate_slippage (askLevels : List Level) (mid : ℚ) (ntlValue : ℚ) : ℚ :=
  if ntlValue ≤ (slippageLoop ntlValue askLevels 0 0).2 then
    |(slippageLoop ntlValue askLevels 0 0).1 / mid - 1|
  else 1

/-- Spec-side definition (from the spec's words, §4.5 / claim C4): the
volume-weighted average fill price over the fraction of each ask level
consumed to fill exactly `N`, where each level's weight is the notional
volume consumed at that level divided by `N`.  `consumed` tracks the
notional already filled by earlier levels. -/
def vwapAux (N : ℚ) : List Level → ℚ → ℚ
  | [], _ => 0
  | l :: rest, consumed =>
    min (l.px * l.sz) (N - consumed) / N * l.px +
      vwapAux N rest (consumed + min (l.px * l.sz) (N - consumed))

/-- Spec-side volume-weighted average fill price for notional `N`. -/
def vwapFill (N : ℚ) (ls : List Level) : ℚ := vwapAux N ls 0

/-- Spec-side value for full consumption of the ladder (claim C8): the
average executed price when the entire ladder is consumed, each level
weighted by its share `px*sz / N` of the target notional. -/
def fullLadderAvg (N : ℚ) (ls : List Level) : ℚ :=
  (ls.map (fun l => l.px * l.sz / N * l.px)).sum

/-! ### Order-book snapshots (`update_market_data_cache`, per-line fields) -/

/-- One parsed market-data line: the coin and the two level ladders
(`levels = [bids, asks]`). -/
structure Snapshot where
  coin : String
  bids : List Level
  asks : List Level
deriving DecidableEq, Repr

/-- Price of the first level of a ladder (`levels[i][0]['px']`); the source
indexes the head of a nonempty ladder. -/
def bestPx (ls : List Level) : ℚ := (ls.headD ⟨0, 0⟩).px

/-- `highest_bid` column: first price of the bid ladder. -/
def highest_bid (s : Snapshot) : ℚ := bestPx s.bids

/-- `lowest_ask` column: first price of the ask ladder. -/
def lowest_ask (s : Snapshot) : ℚ := bestPx s.asks

/-- `mid` column: `(highest_bid + lowest_ask) / 2` (main.py line 203). -/
def midPrice (s : Snapshot) : ℚ := (highest_bid s + lowest_ask s) / 2

/-- `liquidity` column: sum of `px * sz` over every level of both
ladders (main.py lines 185-189). -/
def liquidityOf (s : Snapshot) : ℚ :=
  totalNotional s.bids + totalNotional s.asks

/-! ## List utilities used by the embedding of the pandas operations

`pandas.groupby` sorts the distinct group keys; `median` sorts the group's
values.  We embed both with a structural insertion sort (any correct sort
gives the same result on the distinct keys, and the same order statistics
on the values). -/

/-- Insert into a list sorted by the boolean comparison `le`. -/
def insertLe {α : Type} (le : α → α → Bool) (a : α) : List α → List α
  | [] => [a]
  | b :: bs => if le a b then a :: b :: bs else b :: insertLe le a bs

/-- Insertion sort by the boolean comparison `le`. -/
def sortLe {α : Type} (le : α → α → Bool) : List α → List α
  | [] => []
  | a :: as => insertLe le a (sortLe le as)

/-- Distinct elements of a list (each value kept once; order is irrelevant
to the callers, which sort the result). -/
def distinctVals {α : Type} [DecidableEq α] : List α → List α
  | [] => []
  | a :: as => if a ∈ as then distinctVals as else a :: distinctVals as

/-- Boolean comparison on `ℚ`. -/
def ratLe (a b : ℚ) : Bool := decide (a ≤ b)

/-- The `pandas.Series.median`: sort the values; for an odd count take the
middle element, for an even count the average of the two middle elements
(an empty series does not occur on the grouped data; we return 0 there). -/
def median (xs : List ℚ) : ℚ :=
  if (sortLe ratLe xs).length % 2 = 1 then
    (sortLe ratLe xs).getD ((sortLe ratLe xs).length / 2) 0
  else
    ((sortLe ratLe xs).getD ((sortLe ratLe xs).length / 2 - 1) 0 +
      (sortLe ratLe xs).getD ((sortLe ratLe xs).length / 2) 0) / 2

/-- The `pandas.Series.mean`: sum divided by count. -/
def mean (xs : List ℚ) : ℚ := xs.sum / xs.length

/-- Charwise comparison of strings, via the code points. -/
def charListLe : List Char → List Char → Bool
  | [], _ => true
  | _ :: _, [] => false
  | a :: as, b :: bs =>
    if a.toNat < b.toNat then true
    else if b.toNat < a.toNat then false
    else charListLe as bs

/-- String order used to embed the sorted group keys of `pandas.groupby`. -/
def strLe (a b : String) : Bool := charListLe a.toList b.toList

/-- Does `n` occur as a prefix of `h` (helper for the python `in`
substring test on table and file names)? -/
def charListStartsWith : List Char → List Char → Bool
  | [], _ => true
  | _ :: _, [] => false
  | a :: as, b :: bs => a == b && charListStartsWith as bs

/-- Does the needle occur somewhere inside the haystack? -/
def charListContains (n : List Char) : List Char → Bool
  | [] => n.isEmpty
  | c :: rest => charListStartsWith n (c :: rest) || charListContains n rest

/-- The python substring test `needle in hay` on strings. -/
def strContains (hay needle : String) : Bool :=
  charListContains needle.toList hay.toList

/-! ## The database model and `update_db_table`

A database is an association list from table name to row list.  A cache
row is `(time, coin, vals)`: the `time` column (the date stamp every
aggregation writes), one string key column and the remaining numeric
columns.  Sources whose cache rows carry no coin leave it `""`. -/

/-- One row of a (cache) table: the `time` column, a string key column and
the remaining numeric columns. -/
structure CacheRow where
  time : Int
  coin : String
  vals : List ℚ
deriving DecidableEq, Repr

/-- The database: a map from table name to the table's rows. -/
abbrev DB := List (String × List CacheRow)

/-- Look a table up by name (a missing table makes SQL statements on it
raise, which the source catches). -/
def lookupTable (db : DB) (name : String) : Option (List CacheRow) :=
  db.lookup name

/-- Replace the contents of a table, creating it when missing. -/
def setTable : DB → String → List CacheRow → DB
  | [], name, rows => [(name, rows)]
  | p :: rest, name, rows =>
    if p.1 = name then (name, rows) :: rest else p :: setTable rest name rows

/-- The guarded `DELETE FROM {t} where time = '{date}'` of `update_db_table`
(main.py lines 82-86): on a missing table the statement raises and the
exception is swallowed (`pass`), leaving the database unchanged. -/
def deleteWhereTime (db : DB) (name : String) (date : Int) : DB :=
  match lookupTable db name with
  | none => db
  | some rows => setTable db name (rows.filter (fun r => r.time ≠ date))

/-- The `df.to_sql(..., if_exists="append")` call: append the frame's rows
to the table, creating the table when missing.  (The source's `except`
fallback rewrites the whole table on a schema mismatch; rows of one table
have a single schema in this model, so the append never fails.) -/
def appendRows (db : DB) (name : String) (df : List CacheRow) : DB :=
  setTable db name ((lookupTable db name).getD [] ++ df)

/-- `update_db_table` (main.py lines 76-95): for a cache table that is not
the market-data cache, first delete the date's existing rows; then append
the new rows. -/
def update_db_table (db : DB) (table_name : String) (df : List CacheRow)
    (date : Int) : DB :=
  appendRows
    (if strContains table_name "cache" && !strContains table_name "market_data"
     then deleteWhereTime db table_name date
     else db)
    table_name df

/-! ## The market-data aggregation (`update_market_data_cache`) -/

/-- The fixed notional tiers (main.py line 205). -/
def ntl_values : List ℚ := [1/100, 1000, 3000, 10000, 30000, 100000]

/-- The aggregated cache row of one `(time, coin)` group (main.py lines
212-221): `median_liquidity`, the six `median_slippage_*` columns and the
mean `mid_price`, each statistic taken over the group's snapshots. -/
def marketRow (date : Int) (coin : String) (snaps : List Snapshot) : CacheRow :=
  { time := date
    coin := coin
    vals :=
      median (snaps.map liquidityOf) ::
        ntl_values.map
          (fun n => median (snaps.map (fun s => calculate_slippage s.asks (midPrice s) n)))
        ++ [mean (snaps.map midPrice)] }

/-- Distinct coins of a snapshot list, in sorted order (the groupby keys;
the `time` key is the constant `date`, so the groups are the coins). -/
def distinctCoins (snaps : List Snapshot) : List String :=
  sortLe strLe (distinctVals (snaps.map (fun s => s.coin)))

/-- The aggregated frame one shard file produces: one row per distinct coin
of the file, with that file's group statistics. -/
def shardRows (date : Int) (snaps : List Snapshot) : List CacheRow :=
  (distinctCoins snaps).map
    (fun c => marketRow date c (snaps.filter (fun s => s.coin == c)))

/-- `update_market_data_cache` (main.py lines 175-223): parse one shard
file into snapshots, compute the per-snapshot metrics, aggregate per
`(time, coin)` and hand the frame to `update_db_table` for the
`market_data_cache` table. -/
def update_market_data_cache (db : DB) (date : Int) (snaps : List Snapshot) : DB :=
  update_db_table db "market_data_cache" (shardRows date snaps) date

/-- The market-data shard loop of `main` (lines 442-453): every
`(hour, instrument)` shard file of the date is processed by its own
`update_market_data_cache` call, in order. -/
def processMarketDataDay (db : DB) (date : Int) (shards : List (List Snapshot)) : DB :=
  shards.foldl (fun acc file => update_market_data_cache acc date file) db

/-- Spec-side definition (from the spec's words, §4.5 / claim C2): one row
per `(date, coin)` whose statistics range over the union of the snapshots
of all shards of the date. -/
def specDayRows (date : Int) (shards : List (List Snapshot)) : List CacheRow :=
  (distinctCoins shards.flatten).map
    (fun c => marketRow date c (shards.flatten.filter (fun s => s.coin == c)))

/-! ## `get_latest_date` and the per-source date resolution -/

/-- The value of `SELECT max(time) FROM t` over a row list: SQL `max`
ignores no rows here and yields `NULL` on an empty table. -/
def maxTime : List CacheRow → Option Int
  | [] => none
  | r :: rest =>
    match maxTime rest with
    | none => some r.time
    | some m => some (max r.time m)

/-- Executing `SELECT max(time) FROM {t}`: raises when the table does not
exist, else returns the (nullable) maximum. -/
def queryMaxTime (db : DB) (name : String) : Except String (Option Int) :=
  match lookupTable db name with
  | none => Except.error ("no such table: " ++ name)
  | some rows => Except.ok (maxTime rows)

/-- `get_latest_date` (main.py lines 98-105): run the max-date query inside
`try/except`; any failure is caught and `None` is returned. -/
def get_latest_date (db : DB) (name : String) : Option Int :=
  match queryMaxTime db name with
  | Except.ok v => v
  | Except.error _ => none

/-- `generate_dates` (main.py lines 122-128): the dates from `start_date`
through `today` inclusive, ascending (empty when `start_date` is after
`today`, as python's `range` of a non-positive bound is empty). -/
def generate_dates (start_date today : Int) : List Int :=
  (List.range (today - start_date + 1).toNat).map (fun (x : Nat) => start_date + (x : Int))

/-- The per-source date resolution of `main` (lines 423-436): with a cache
max date `D` the run iterates `generate_dates(D)[1:]`; with no cache data
the base table is dropped (the boolean component) and the run iterates
`generate_dates(today - 85)[1:]`. -/
def resolveDates (cacheMax : Option Int) (today : Int) : Bool × List Int :=
  match cacheMax with
  | some d => (false, (generate_dates d today).drop 1)
  | none => (true, (generate_dates (today - 85) today).drop 1)

/-- Spec-side notation (claims C3/C10): the ascending list of dates from
`a` through `b` inclusive. -/
def datesFromTo (a b : Int) : List Int :=
  (List.range (b - a + 1).toNat).map (fun (x : Nat) => a + (x : Int))

/-! ## `market_data_exists` and the market-data date guard -/

/-- `market_data_exists` (main.py lines 402-409): does the
`market_data_cache` table hold a row for the date?  A missing table makes
the query raise; the exception is caught and `False` returned. -/
def market_data_exists (db : DB) (date : Int) : Bool :=
  match lookupTable db "market_data_cache" with
  | none => false
  | some rows => rows.any (fun r => r.time = date)

/-- The market-data branch of the per-date loop of `main` (lines 438-453):
when cache rows for the date already exist, alert and `continue` (the
boolean component records the skip); otherwise process every shard of the
date. -/
def processMarketDataDate (db : DB) (date : Int)
    (shards : List (List Snapshot)) : DB × Bool :=
  if market_data_exists db date then (db, true)
  else (processMarketDataDay db date shards, false)

/-! ## The consistency check and the orchestration loop -/

/-- The comparison `str(cache_max)[:10] != str(base_max)[:10]` of `main`
(line 468): distinct day numbers render to distinct date strings, and
`str(None) = "None"` differs from every date string. -/
def dateStrNe (c : Int) (b : Option Int) : Bool :=
  match b with
  | none => true
  | some b2 => decide (b2 ≠ c)

/-- The per-source consistency check of `main` (lines 466-471): read the
cache table's max date; when it is non-null and its date string differs
from the base table's, produce the alert payload (both dates).  The check
only reads; it returns no new database. -/
def consistencyCheck (db : DB) (table : String) : Option (Int × Option Int) :=
  match get_latest_date db (table ++ "_cache") with
  | none => none
  | some c =>
    if dateStrNe c (get_latest_date db table) then
      some (c, get_latest_date db table)
    else none

/-- One alert of the per-date loop: the success message or the failure
message for a date (main.py lines 458-464). -/
inductive Alert where
  | success (date : Int)
  | failure (date : Int)
deriving DecidableEq, Repr

/-- The per-date loop of `main` (lines 436-464): each date is processed
inside `try/except`; a success sends the success alert, a failure sends
the failure alert, and in both cases the loop continues with the next
date.  `step` returns the database after the date's processing (partial
writes of a failed date persist, as the source rolls nothing back) and
whether the date succeeded.  The result records the final database, the
dates attempted and the alerts sent, in order. -/
def orchestrate (step : DB → Int → DB × Bool) :
    DB → List Int → DB × List Int × List Alert
  | db, [] => (db, [], [])
  | db, d :: rest =>
    ((orchestrate step (step db d).1 rest).1,
      d :: (orchestrate step (step db d).1 rest).2.1,
      (if (step db d).2 then Alert.success d else Alert.failure d) ::
        (orchestrate step (step db d).1 rest).2.2)

/-! ## Lemmas about the slippage loop -/

@[simp] lemma totalNotional_nil : totalNotional [] = 0 := rfl

@[simp] lemma totalNotional_cons (l : Level) (ls : List Level) :
    totalNotional (l :: ls) = l.px * l.sz + totalNotional ls := by
  simp [totalNotional]

lemma totalNotional_nonneg (ls : List Level) (h : ∀ l ∈ ls, 0 ≤ l.px * l.sz) :
    0 ≤ totalNotional ls := by
  induction ls with
  | nil => simp
  | cons l rest ih =>
    have h1 := h l (by simp)
    have h2 : 0 ≤ totalNotional rest := ih (fun x hx => h x (by simp [hx]))
    simp only [totalNotional_cons]
    linarith

/-- Once the target notional is fully consumed, later levels contribute
nothing to the spec-side average. -/
lemma vwapAux_saturated (N : ℚ) (ls : List Level)
    (h : ∀ l ∈ ls, 0 ≤ l.px * l.sz) : vwapAux N ls N = 0 := by
  induction ls with
  | nil => rfl
  | cons l rest ih =>
    have h1 := h l (by simp)
    have h2 : min (l.px * l.sz) (N - N) = 0 := by
      rw [sub_self]
      exact min_eq_right h1
    simp only [vwapAux, h2]
    rw [add_zero]
    rw [ih (fun x hx => h x (by simp [hx]))]
    ring

/-- When the ladder can supply the target notional, the loop reaches
`filled = N` and accumulates exactly the spec-side weighted average. -/
lemma slippageLoop_reach (N : ℚ) :
    ∀ (ls : List Level) (avg filled : ℚ), (∀ l ∈ ls, 0 ≤ l.px * l.sz) →
      filled < N → N ≤ filled + totalNotional ls →
      slippageLoop N ls avg filled = (avg + vwapAux N ls filled, N) := by
  intro ls
  induction ls with
  | nil =>
    intro avg filled _ hlt hge
    rw [totalNotional_nil, add_zero] at hge
    exact absurd hge (not_le.mpr hlt)
  | cons l rest ih =>
    intro avg filled hpos hlt hge
    have hl := hpos l (by simp)
    have hrest : ∀ x ∈ rest, 0 ≤ x.px * x.sz := fun x hx => hpos x (by simp [hx])
    by_cases hc : N ≤ filled + l.px * l.sz
    · have hmin : min (l.px * l.sz) (N - filled) = N - filled :=
        min_eq_right (by linarith)
      simp only [slippageLoop, if_pos hc, vwapAux, hmin]
      have hsat : filled + (N - filled) = N := by ring
      rw [hsat, vwapAux_saturated N rest hrest]
      rw [Prod.mk.injEq]
      constructor
      · ring
      · rfl
    · have hlt2 : filled + l.px * l.sz < N := not_le.mp hc
      have hmin : min (l.px * l.sz) (N - filled) = l.px * l.sz :=
        min_eq_left (by linarith)
      simp only [slippageLoop, if_neg hc, vwapAux, hmin]
      rw [ih (avg + l.px * l.sz / N * l.px) (filled + l.px * l.sz) hrest hlt2
            (by rw [totalNotional_cons] at hge; linarith)]
      rw [Prod.mk.injEq]
      constructor
      · ring
      · rfl

/-- When the ladder cannot supply the target notional, the loop consumes
every level and ends with `filled` equal to the ladder's total notional. -/
lemma slippageLoop_exhaust (N : ℚ) :
    ∀ (ls : List Level) (avg filled : ℚ), (∀ l ∈ ls, 0 ≤ l.px * l.sz) →
      filled + totalNotional ls < N →
      (slippageLoop N ls avg filled).2 = filled + totalNotional ls := by
  intro ls
  induction ls with
  | nil =>
    intro avg filled _ _
    simp [slippageLoop]
  | cons l rest ih =>
    intro avg filled hpos hlt
    have hrest : ∀ x ∈ rest, 0 ≤ x.px * x.sz := fun x hx => hpos x (by simp [hx])
    have hr0 : 0 ≤ totalNotional rest := totalNotional_nonneg rest hrest
    rw [totalNotional_cons] at hlt
    have hc : ¬ N ≤ filled + l.px * l.sz := by linarith
    simp only [slippageLoop, if_neg hc]
    rw [ih (avg + l.px * l.sz / N * l.px) (filled + l.px * l.sz) hrest (by linarith)]
    rw [totalNotional_cons]
    ring

/-- When the ladder's total notional is exactly the target, every level is
consumed in full and the spec-side average is the full-ladder average. -/
lemma vwapAux_full (N : ℚ) :
    ∀ (ls : List Level) (consumed : ℚ), (∀ l ∈ ls, 0 ≤ l.px * l.sz) →
      consumed + totalNotional ls = N →
      vwapAux N ls consumed = fullLadderAvg N ls := by
  intro ls
  induction ls with
  | nil => intro consumed _ _; rfl
  | cons l rest ih =>
    intro consumed hpos heq
    have hrest : ∀ x ∈ rest, 0 ≤ x.px * x.sz := fun x hx => hpos x (by simp [hx])
    have hr0 : 0 ≤ totalNotional rest := totalNotional_nonneg rest hrest
    rw [totalNotional_cons] at heq
    have hmin : min (l.px * l.sz) (N - consumed) = l.px * l.sz :=
      min_eq_left (by linarith)
    simp only [vwapAux, hmin, fullLadderAvg, List.map_cons, List.sum_cons]
    rw [ih (consumed + l.px * l.sz) hrest (by linarith)]
    rw [fullLadderAvg]

/-- C4 (confirmed): for every order-book snapshot whose ask ladder can
supply notional `N` (the cumulative `px*sz` over the ask levels reaches
`N`), `calculate_slippage` returns `|p / mid - 1|`, where `mid` is
`(best bid + best ask) / 2` and `p` is the volume-weighted average fill
price over the fraction of each ask level consumed to fill exactly `N`
(each level weighted by the notional volume consumed at it). -/
theorem claim_C4_slippage_is_vwap_deviation (s : Snapshot) (N : ℚ)
    (hN : 0 < N) (hpos : ∀ l ∈ s.asks, 0 ≤ l.px * l.sz)
    (hfill : N ≤ totalNotional s.asks) :
    calculate_slippage s.asks (midPrice s) N =
      |vwapFill N s.asks / midPrice s - 1| := by
  have h1 := slippageLoop_reach N s.asks 0 0 hpos hN (by simpa using hfill)
  rw [calculate_slippage, h1]
  simp [vwapFill]

/-- Sample snapshot: bid ladder `[(9, 1)]`, ask ladder `[(10, 1), (12, 1)]`. -/
def snapA : Snapshot := ⟨"ETH", [⟨9, 1⟩], [⟨10, 1⟩, ⟨12, 1⟩]⟩

/-- Witness for C4 at the sample snapshot and notional 10: all hypotheses
hold there and the claimed equation follows by the theorem. -/
theorem claim_C4_slippage_is_vwap_deviation_witness :
    (0 : ℚ) < 10 ∧ (∀ l ∈ snapA.asks, 0 ≤ l.px * l.sz) ∧
    (10 : ℚ) ≤ totalNotional snapA.asks ∧
    calculate_slippage snapA.asks (midPrice snapA) 10 =
      |vwapFill 10 snapA.asks / midPrice snapA - 1| :=
  ⟨by norm_num,
   by intro l hl; fin_cases hl <;> norm_num [snapA],
   by norm_num [totalNotional, snapA],
   claim_C4_slippage_is_vwap_deviation snapA 10 (by norm_num)
     (by intro l hl; fin_cases hl <;> norm_num [snapA])
     (by norm_num [totalNotional, snapA])⟩

/-- C8 (confirmed): for every ask ladder and notional `N`, a ladder whose
total notional is strictly below `N` yields the sentinel slippage `1`,
while a ladder whose total notional equals `N` exactly yields the defined
value obtained from consuming the entire ladder, namely
`|fullLadderAvg N asks / mid - 1|`, via the filled branch rather than the
sentinel branch. -/
theorem claim_C8_exhaustion_boundary (asks : List Level) (mid N : ℚ)
    (hN : 0 < N) (hpos : ∀ l ∈ asks, 0 ≤ l.px * l.sz) :
    (totalNotional asks < N → calculate_slippage asks mid N = 1) ∧
    (totalNotional asks = N →
      calculate_slippage asks mid N = |fullLadderAvg N asks / mid - 1|) := by
  constructor
  · intro hlt
    have h2 := slippageLoop_exhaust N asks 0 0 hpos (by simpa using hlt)
    rw [calculate_slippage, if_neg (by rw [h2]; simpa using not_le.mpr hlt)]
  · intro heq
    have h1 := slippageLoop_reach N asks 0 0 hpos hN (by simp [heq])
    rw [calculate_slippage, h1]
    simp only [if_pos (le_refl N), zero_add]
    rw [vwapAux_full N asks 0 hpos (by simpa using heq)]

/-- Witness for C8: the single-level ladder `[(10, 1)]` (total notional 10)
yields the sentinel for `N = 1000` and the full-consumption value for
`N = 10`. -/
theorem claim_C8_exhaustion_boundary_witness :
    (0 : ℚ) < 1000 ∧ (0 : ℚ) < 10 ∧
    (∀ l ∈ [Level.mk 10 1], (0 : ℚ) ≤ l.px * l.sz) ∧
    totalNotional [Level.mk 10 1] < 1000 ∧
    totalNotional [Level.mk 10 1] = 10 ∧
    calculate_slippage [Level.mk 10 1] (19/2) 1000 = 1 ∧
    calculate_slippage [Level.mk 10 1] (19/2) 10 =
      |fullLadderAvg 10 [Level.mk 10 1] / (19/2) - 1| :=
  ⟨by norm_num, by norm_num,
   by intro l hl; fin_cases hl <;> norm_num,
   by norm_num [totalNotional],
   by norm_num [totalNotional],
   (claim_C8_exhaustion_boundary [Level.mk 10 1] (19/2) 1000 (by norm_num)
     (by intro l hl; fin_cases hl <;> norm_num)).1 (by norm_num [totalNotional]),
   (claim_C8_exhaustion_boundary [Level.mk 10 1] (19/2) 10 (by norm_num)
     (by intro l hl; fin_cases hl <;> norm_num)).2 (by norm_num [totalNotional])⟩

/-! ## Lemmas about the database model and claim C1 (cache-write idempotence) -/

lemma lookupTable_setTable_self (db : DB) (name : String) (rows : List CacheRow) :
    lookupTable (setTable db name rows) name = some rows := by
  induction db with
  | nil => simp [setTable, lookupTable, List.lookup]
  | cons p rest ih =>
    by_cases h : p.1 = name
    · simp [setTable, if_pos h, lookupTable, List.lookup]
    · simp only [setTable, if_neg h]
      rw [lookupTable, List.lookup]
      have hbeq : (name == p.1) = false := by
        simp [beq_iff_eq]
        exact fun he => h he.symm
      rw [hbeq]
      exact ih

/-- After `update_db_table` on a non-market cache table, the table holds
exactly the previous rows of other dates followed by the new frame. -/
lemma update_db_table_lookup (db : DB) (name : String) (df : List CacheRow)
    (date : Int) (hc : strContains name "cache" = true)
    (hm : strContains name "market_data" = false) :
    lookupTable (update_db_table db name df date) name =
      some ((((lookupTable db name).getD []).filter (fun r => r.time ≠ date)) ++ df) := by
  rw [update_db_table, hc, hm]
  simp only [Bool.not_false, Bool.and_true, if_true]
  cases h : lookupTable db name with
  | none =>
    rw [deleteWhereTime, h]
    rw [appendRows, h]
    simp [lookupTable_setTable_self]
  | some rows =>
    rw [deleteWhereTime, h]
    rw [appendRows, lookupTable_setTable_self]
    simp [lookupTable_setTable_self]

/-- C1 (corrected; the delete-then-insert idempotence holds only for the
eight sources other than market_data): for a cache table whose name
contains `"cache"` and not `"market_data"`, writing a date's frame twice
through `update_db_table` leaves the cache table with the same rows as
writing it once, because the second write deletes the date's existing rows
before inserting. -/
theorem claim_C1_cache_write_idempotent (db : DB) (name : String)
    (df : List CacheRow) (date : Int)
    (hc : strContains name "cache" = true)
    (hm : strContains name "market_data" = false)
    (hdf : ∀ r ∈ df, r.time = date) :
    lookupTable (update_db_table (update_db_table db name df date) name df date)
        name =
      lookupTable (update_db_table db name df date) name := by
  rw [update_db_table_lookup _ _ _ _ hc hm,
      update_db_table_lookup db name df date hc hm]
  have hdf0 : df.filter (fun r => r.time ≠ date) = [] := by
    rw [List.filter_eq_nil_iff]
    intro r hr
    simp [hdf r hr]
  rw [Option.getD_some, List.filter_append, hdf0, List.append_nil,
      List.filter_filter]
  congr 2
  apply List.filter_congr
  intro r _
  simp

/-- Witness for C1 (amended): the `non_mm_trades_cache` table on a concrete
database and frame; every hypothesis holds and the double write equals the
single write. -/
theorem claim_C1_cache_write_idempotent_witness :
    strContains "non_mm_trades_cache" "cache" = true ∧
    strContains "non_mm_trades_cache" "market_data" = false ∧
    (∀ r ∈ [CacheRow.mk 5 "u" []], r.time = 5) ∧
    lookupTable
        (update_db_table
          (update_db_table [("non_mm_trades_cache", [CacheRow.mk 4 "w" []])]
            "non_mm_trades_cache" [CacheRow.mk 5 "u" []] 5)
          "non_mm_trades_cache" [CacheRow.mk 5 "u" []] 5)
        "non_mm_trades_cache" =
      lookupTable
        (update_db_table [("non_mm_trades_cache", [CacheRow.mk 4 "w" []])]
          "non_mm_trades_cache" [CacheRow.mk 5 "u" []] 5)
        "non_mm_trades_cache" :=
  ⟨by decide, by decide, by decide,
   claim_C1_cache_write_idempotent
     [("non_mm_trades_cache", [CacheRow.mk 4 "w" []])] "non_mm_trades_cache"
     [CacheRow.mk 5 "u" []] 5 (by decide) (by decide) (by decide)⟩

/-- Counterexample to C1 as stated: for the market_data source the
cache-write path performs no per-date delete (`update_db_table` skips the
delete when the table name contains `"market_data"`), so processing the
same date twice duplicates the cache rows instead of leaving them
unchanged. -/
theorem claim_C1_counterexample :
    lookupTable
        (update_db_table
          (update_db_table [] "market_data_cache" [CacheRow.mk 0 "ETH" []] 0)
          "market_data_cache" [CacheRow.mk 0 "ETH" []] 0)
        "market_data_cache" =
      some [CacheRow.mk 0 "ETH" [], CacheRow.mk 0 "ETH" []] ∧
    lookupTable
        (update_db_table [] "market_data_cache" [CacheRow.mk 0 "ETH" []] 0)
        "market_data_cache" =
      some [CacheRow.mk 0 "ETH" []] ∧
    [CacheRow.mk 0 "ETH" [], CacheRow.mk 0 "ETH" []] ≠ [CacheRow.mk 0 "ETH" []] := by
  refine ⟨by decide, by decide, by decide⟩

/-! ## Claim C3: the date-range resolver -/

/-- Dropping the first generated date shifts the start of the range by one
day. -/
lemma generate_dates_drop_one (d today : Int) :
    (generate_dates d today).drop 1 = datesFromTo (d + 1) today := by
  rw [generate_dates, datesFromTo]
  by_cases h : d ≤ today
  · have hk : (today - d + 1).toNat = (today - (d + 1) + 1).toNat + 1 := by omega
    rw [hk, List.range_succ_eq_map]
    simp only [List.map_cons, List.drop_succ_cons, List.drop_zero, List.map_map]
    apply List.map_congr_left
    intro a _
    simp only [Function.comp_apply]
    push_cast
    ring
  · have h1 : (today - d + 1).toNat = 0 := by omega
    have h2 : (today - (d + 1) + 1).toNat = 0 := by omega
    rw [h1, h2]
    rfl

/-- The resolved date ranges are strictly ascending. -/
lemma datesFromTo_sorted (a b : Int) : List.Sorted (· < ·) (datesFromTo a b) := by
  rw [datesFromTo, List.Sorted, List.pairwise_map]
  refine (List.pairwise_lt_range _).imp ?_
  intro x y hxy
  have hxy2 : x < y := hxy
  omega

/-- C3 (corrected; on a fresh start the first processed date is
`today - 84`, not `today - 85`): with cache max date `D` the run processes
exactly `D+1, ..., today` ascending and does not drop the base table; with
no cache data the base table is dropped and the run processes exactly
`today - 84, ..., today` ascending — the seed `today - 85` itself is
excluded by the same first-element skip that excludes `D`. -/
theorem claim_C3_resolved_dates (cacheMax : Option Int) (today : Int) :
    (∀ d, cacheMax = some d →
        resolveDates cacheMax today = (false, datesFromTo (d + 1) today)) ∧
    (cacheMax = none →
        resolveDates cacheMax today = (true, datesFromTo (today - 84) today)) ∧
    List.Sorted (· < ·) (resolveDates cacheMax today).2 := by
  refine ⟨?_, ?_, ?_⟩
  · intro d hd
    rw [hd, resolveDates, generate_dates_drop_one]
  · intro hn
    rw [hn, resolveDates, generate_dates_drop_one]
    have he : today - 85 + 1 = today - 84 := by ring
    rw [he]
  · cases cacheMax with
    | none =>
      rw [resolveDates, generate_dates_drop_one]
      exact datesFromTo_sorted _ _
    | some d =>
      rw [resolveDates, generate_dates_drop_one]
      exact datesFromTo_sorted _ _

/-- Witness for C3 (amended), at cache max date 10 with today 12 and at an
empty cache with today 12. -/
theorem claim_C3_resolved_dates_witness :
    resolveDates (some 10) 12 = (false, datesFromTo 11 12) ∧
    resolveDates none 12 = (true, datesFromTo (12 - 84) 12) :=
  ⟨(claim_C3_resolved_dates (some 10) 12).1 10 rfl,
   (claim_C3_resolved_dates none 12).2.1 rfl⟩

/-- Counterexample to C3 as stated: on a fresh start with today = 100 the
date `today - 85 = 15` is generated as the seed but never processed — the
loop iterates `dates[1:]` — so the processed dates start at 16, not at 15. -/
theorem claim_C3_counterexample :
    ((100 : Int) - 85) ∉ (resolveDates none 100).2 ∧
    (resolveDates none 100).2.head? = some (100 - 84) := by
  refine ⟨by decide, by decide⟩

/-! ## Claim C6: failure isolation in the per-date loop -/

/-- C6 (corrected; a failed date does not stop the loop): every resolved
date is attempted — the attempted list is the full date list even when
some dates fail — and each date produces exactly one alert (success or
failure).  A failure aborts only its own date's processing; the loop then
continues with the next date. -/
theorem claim_C6_per_date_isolation (step : DB → Int → DB × Bool) (db : DB)
    (dates : List Int) :
    (orchestrate step db dates).2.1 = dates ∧
    (orchestrate step db dates).2.2.length = dates.length := by
  induction dates generalizing db with
  | nil => exact ⟨rfl, rfl⟩
  | cons d rest ih =>
    refine ⟨?_, ?_⟩
    · rw [orchestrate]
      rw [(ih (step db d).1).1]
    · rw [orchestrate]
      simp only [List.length_cons]
      rw [(ih (step db d).1).2]

/-- Demonstration step for the C6 counterexample: date 2 fails (leaving the
database unchanged), every other date appends its row to table `"t"`. -/
def demoStep (db : DB) (d : Int) : DB × Bool :=
  if d = 2 then (db, false)
  else (appendRows db "t" [CacheRow.mk d "" []], true)

/-- Counterexample to C6 as stated: with dates `[1, 2, 3]` and a step that
fails on date 2, date 3 is still attempted and processed in the same run
(its row reaches the table and its success alert is sent), contradicting
"the remaining later dates of that source are left unattempted". -/
theorem claim_C6_counterexample :
    (demoStep (orchestrate demoStep [] [1]).1 2).2 = false ∧
    (orchestrate demoStep [] [1, 2, 3]).2.1 = [1, 2, 3] ∧
    (orchestrate demoStep [] [1, 2, 3]).2.2 =
      [Alert.success 1, Alert.failure 2, Alert.success 3] ∧
    lookupTable (orchestrate demoStep [] [1, 2, 3]).1 "t" =
      some [CacheRow.mk 1 "" [], CacheRow.mk 3 "" []] := by
  refine ⟨by decide, by decide, by decide, by decide⟩

/-! ## Claim C7: the consistency check -/

/-- Unfolding of the consistency check on a null cache max date. -/
lemma consistencyCheck_of_none (db : DB) (t : String)
    (hc : get_latest_date db (t ++ "_cache") = none) :
    consistencyCheck db t = none := by
  rw [consistencyCheck, hc]

/-- Unfolding of the consistency check on a non-null cache max date. -/
lemma consistencyCheck_of_some (db : DB) (t : String) (c : Int)
    (hc : get_latest_date db (t ++ "_cache") = some c) :
    consistencyCheck db t =
      if dateStrNe c (get_latest_date db t) then
        some (c, get_latest_date db t)
      else none := by
  rw [consistencyCheck, hc]

/-- The embedded date-string comparison holds exactly when the base max
date is absent or differs from the cache max date. -/
lemma dateStrNe_iff (c : Int) (b : Option Int) :
    dateStrNe c b = true ↔ b ≠ some c := by
  cases b with
  | none => simp [dateStrNe]
  | some b2 => simp [dateStrNe]

/-- C7 (corrected; no source is exempted — for market_data, whose base
table never exists, the alert fires whenever its cache has data): for
every source the check emits an alert exactly when the cache table's max
date is non-null and differs from the base table's max date (a null base
max date counts as different); the alert carries both dates, and the
check only reads the two tables. -/
theorem claim_C7_consistency_alert_iff (db : DB) (t : String) :
    ((consistencyCheck db t).isSome = true ↔
      ∃ c, get_latest_date db (t ++ "_cache") = some c ∧
        get_latest_date db t ≠ some c) ∧
    (∀ c b, consistencyCheck db t = some (c, b) →
      get_latest_date db (t ++ "_cache") = some c ∧
        b = get_latest_date db t) := by
  constructor
  · cases hc : get_latest_date db (t ++ "_cache") with
    | none =>
      rw [consistencyCheck_of_none db t hc]
      simp
    | some c =>
      rw [consistencyCheck_of_some db t c hc]
      by_cases hd : dateStrNe c (get_latest_date db t) = true
      · rw [if_pos hd]
        simp only [Option.isSome_some, true_iff]
        exact ⟨c, rfl, (dateStrNe_iff c _).mp hd⟩
      · rw [if_neg hd]
        simp only [Option.isSome_none, Bool.false_eq_true, false_iff]
        rintro ⟨c2, hc2, hne⟩
        cases hc2
        exact hd ((dateStrNe_iff c _).mpr hne)
  · intro c b hsome
    cases hc : get_latest_date db (t ++ "_cache") with
    | none => rw [consistencyCheck_of_none db t hc] at hsome; cases hsome
    | some c2 =>
      rw [consistencyCheck_of_some db t c2 hc] at hsome
      by_cases hd : dateStrNe c2 (get_latest_date db t) = true
      · rw [if_pos hd] at hsome
        cases hsome
        exact ⟨rfl, rfl⟩
      · rw [if_neg hd] at hsome
        cases hsome

/-- Witness for C7 (amended): a database whose `funding_cache` holds a row
of date 3 while the `funding` base table is missing; the alert fires. -/
theorem claim_C7_consistency_alert_iff_witness :
    (consistencyCheck [("funding_cache", [CacheRow.mk 3 "" []])] "funding").isSome
      = true :=
  (claim_C7_consistency_alert_iff [("funding_cache", [CacheRow.mk 3 "" []])]
      "funding").1.mpr ⟨3, by decide, by decide⟩

/-- Counterexample to C7 as stated: the check is not exempted for
market_data — with cache data and no base table it fires an alert — and
an alert is not emitted "exactly when the dates differ": when the cache
max date is null and the base max date is not, the dates differ yet no
alert is emitted. -/
theorem claim_C7_counterexample :
    consistencyCheck [("market_data_cache", [CacheRow.mk 5 "ETH" []])]
        "market_data" = some (5, none) ∧
    consistencyCheck [("funding", [CacheRow.mk 3 "" []])] "funding" = none := by
  refine ⟨by decide, by decide⟩

/-! ## Claim C9: the market-data reprocessing guard -/

/-- C9 (confirmed): if the `market_data_cache` table already holds at least
one row for a date, the pipeline skips every shard of that date — the
database is returned unchanged and the skip (alert) flag is set. -/
theorem claim_C9_market_data_guard (db : DB) (date : Int)
    (shards : List (List Snapshot)) (rows : List CacheRow)
    (h1 : lookupTable db "market_data_cache" = some rows)
    (h2 : ∃ r ∈ rows, r.time = date) :
    processMarketDataDate db date shards = (db, true) := by
  have hex : market_data_exists db date = true := by
    rw [market_data_exists, h1]
    obtain ⟨r, hr, ht⟩ := h2
    exact List.any_eq_true.mpr ⟨r, hr, by simp [ht]⟩
  rw [processMarketDataDate, if_pos hex]

/-- Witness for C9: a database whose market-data cache has a row for date
4; processing date 4 with one (empty) shard leaves it unchanged. -/
theorem claim_C9_market_data_guard_witness :
    processMarketDataDate [("market_data_cache", [CacheRow.mk 4 "ETH" []])] 4
        [[]] =
      ([("market_data_cache", [CacheRow.mk 4 "ETH" []])], true) :=
  claim_C9_market_data_guard _ 4 [[]] [CacheRow.mk 4 "ETH" []] (by decide)
    ⟨CacheRow.mk 4 "ETH" [], by decide, by decide⟩

/-! ## Claim C10: `get_latest_date` catches query failures -/

/-- C10 (confirmed): for every table name, when the table does not exist
the max-date query raises, yet `get_latest_date` returns `None` instead of
propagating the error, and that `None` routes the source into the
fresh-start path: the base table is dropped and the run is seeded from
`today - 85`. -/
theorem claim_C10_get_latest_date_catches (db : DB) (name : String)
    (today : Int) (h : lookupTable db name = none) :
    (∃ e, queryMaxTime db name = Except.error e) ∧
    get_latest_date db name = none ∧
    resolveDates (get_latest_date db name) today =
      (true, (generate_dates (today - 85) today).drop 1) := by
  have hq : queryMaxTime db name = Except.error ("no such table: " ++ name) := by
    rw [queryMaxTime, h]
  have hn : get_latest_date db name = none := by
    rw [get_latest_date, hq]
  exact ⟨⟨_, hq⟩, hn, by rw [hn, resolveDates]⟩

/-- Witness for C10: the empty database has no `funding_cache` table; the
lookup returns `None` and the resolver takes the fresh-start path. -/
theorem claim_C10_get_latest_date_catches_witness :
    lookupTable ([] : DB) "funding_cache" = none ∧
    get_latest_date ([] : DB) "funding_cache" = none ∧
    resolveDates (get_latest_date ([] : DB) "funding_cache") 100 =
      (true, (generate_dates (100 - 85) 100).drop 1) :=
  ⟨rfl, (claim_C10_get_latest_date_catches [] "funding_cache" 100 rfl).2.1,
   (claim_C10_get_latest_date_catches [] "funding_cache" 100 rfl).2.2⟩

/-! ## Claim C2: the market-data day aggregation is per shard, not per day -/

/-- One `update_market_data_cache` call appends its shard's aggregated rows
to the market-data cache without deleting anything (`update_db_table`
skips the per-date delete for the market-data cache). -/
lemma update_market_data_cache_lookup (db : DB) (date : Int)
    (snaps : List Snapshot) :
    lookupTable (update_market_data_cache db date snaps) "market_data_cache" =
      some ((lookupTable db "market_data_cache").getD [] ++
        shardRows date snaps) := by
  rw [update_market_data_cache, update_db_table]
  have hcond : (strContains "market_data_cache" "cache" &&
      !strContains "market_data_cache" "market_data") = false := by decide
  rw [hcond]
  simp only [Bool.false_eq_true, if_false]
  rw [appendRows, lookupTable_setTable_self]

/-- C2 (corrected; the aggregation is per shard, not per day): processing a
market-data date appends, for each `(hour, instrument)` shard in order,
one row per coin of that shard whose statistics (median liquidity, median
slippages, mean mid price) range over that single shard's snapshots only —
the day's cache rows are the concatenation of the per-shard aggregates,
not one union-median row per `(date, coin)`. -/
theorem claim_C2_market_data_per_shard (db : DB) (date : Int)
    (shards : List (List Snapshot)) :
    ((lookupTable (processMarketDataDay db date shards)
        "market_data_cache").getD []) =
      (lookupTable db "market_data_cache").getD [] ++
        (shards.map (shardRows date)).flatten := by
  induction shards generalizing db with
  | nil => simp [processMarketDataDay]
  | cons s rest ih =>
    rw [processMarketDataDay, List.foldl_cons]
    have h1 := ih (update_market_data_cache db date s)
    rw [processMarketDataDay] at h1
    rw [h1, update_market_data_cache_lookup]
    simp [List.append_assoc]

/-- Sample snapshots for the C2 counterexample: same coin, two shards,
different liquidity (3 and 7). -/
def snapB : Snapshot := ⟨"BTC", [⟨1, 1⟩], [⟨2, 1⟩]⟩

/-- Second sample snapshot of the other shard (liquidity 7). -/
def snapC : Snapshot := ⟨"BTC", [⟨3, 1⟩], [⟨4, 1⟩]⟩

/-- Counterexample to C2 as stated: processing one date with two shards of
the same coin leaves two cache rows for the single `(date, coin)` pair —
with per-shard median liquidities 3 and 7 — while the claimed union
aggregation would produce exactly one row with the union median 5. -/
theorem claim_C2_counterexample :
    ((lookupTable (processMarketDataDay [] 0 [[snapB], [snapC]])
        "market_data_cache").getD []).length = 2 ∧
    ((lookupTable (processMarketDataDay [] 0 [[snapB], [snapC]])
        "market_data_cache").getD []).map (fun r => r.coin) = ["BTC", "BTC"] ∧
    (specDayRows 0 [[snapB], [snapC]]).length = 1 ∧
    (shardRows 0 [snapB]).map (fun r => r.vals.headD 0) = [3] ∧
    (shardRows 0 [snapC]).map (fun r => r.vals.headD 0) = [7] ∧
    (specDayRows 0 [[snapB], [snapC]]).map (fun r => r.vals.headD 0) = [5] := by
  refine ⟨by decide, by decide, by decide, ?_, ?_, ?_⟩
  · norm_num [shardRows, distinctCoins, distinctVals, sortLe, insertLe, strLe,
      charListLe, marketRow, median, ratLe, mean, liquidityOf, totalNotional,
      snapB, ntl_values]
  · norm_num [shardRows, distinctCoins, distinctVals, sortLe, insertLe, strLe,
      charListLe, marketRow, median, ratLe, mean, liquidityOf, totalNotional,
      snapC, ntl_values]
  · norm_num [specDayRows, distinctCoins, distinctVals, sortLe, insertLe, strLe,
      charListLe, marketRow, median, ratLe, mean, liquidityOf, totalNotional,
      snapB, snapC, ntl_values]

/-! ## Claim C5: the trades aggregation

Embedding of the `"trades" in file_name` branch of `update_cache_tables`
(main.py lines 262-288).  The frame is grouped by the six keys
(user, coin, side, crossed, special_trade_type, tif) with `mean(px)` and
`sum(sz)`; then `group_count` is assigned from
`df.groupby([user, coin, side, crossed, special_trade_type])["user"].transform("count")`
— a groupby over only FIVE keys on the RAW frame, whose row-indexed series
is aligned to the aggregated frame positionally: aggregated row `i` (in
sorted key order) receives the five-key group size of raw row `i` (in file
order). -/

/-- One raw row of a trades partition (the columns the aggregation uses);
`tif = none` models a NaN cell. -/
structure TradeRow where
  user : String
  coin : String
  side : String
  crossed : Bool
  special_trade_type : String
  tif : Option String
  px : ℚ
  sz : ℚ
deriving DecidableEq, Repr

/-- The effective tif value (main.py lines 263-265): a partition without a
tif column gets the constant `"Gtc"`; NaN cells become `"Na"`. -/
def effTif (hasTifCol : Bool) (r : TradeRow) : String :=
  if hasTifCol then r.tif.getD "Na" else "Gtc"

/-- The six-column groupby key of the trades aggregation. -/
structure TradeKey where
  user : String
  coin : String
  side : String
  crossed : Bool
  special_trade_type : String
  tif : String
deriving DecidableEq, Repr

/-- The six-column key of a raw row. -/
def tradeKey6 (hasTifCol : Bool) (r : TradeRow) : TradeKey :=
  ⟨r.user, r.coin, r.side, r.crossed, r.special_trade_type, effTif hasTifCol r⟩

/-- The five-column key of the `transform("count")` groupby (no tif). -/
def tradeKey5 (r : TradeRow) : String × String × String × Bool × String :=
  (r.user, r.coin, r.side, r.crossed, r.special_trade_type)

/-- Lexicographic order on the six-column keys (pandas sorts group keys;
`False < True` for the boolean column). -/
def tradeKeyLe (a b : TradeKey) : Bool :=
  if a.user ≠ b.user then strLe a.user b.user
  else if a.coin ≠ b.coin then strLe a.coin b.coin
  else if a.side ≠ b.side then strLe a.side b.side
  else if a.crossed ≠ b.crossed then !a.crossed
  else if a.special_trade_type ≠ b.special_trade_type then
    strLe a.special_trade_type b.special_trade_type
  else strLe a.tif b.tif

/-- One row of the aggregated trades frame (`df_agg`). -/
structure TradeAggRow where
  key : TradeKey
  mean_px : ℚ
  sum_sz : ℚ
  group_count : Nat
  time : Int
  usd_volume : ℚ
  liquidated_volume : ℚ
deriving DecidableEq, Repr

/-- The sorted distinct six-column keys (the aggregated frame's rows, in
pandas groupby key order). -/
def tradeKeys (hasTifCol : Bool) (rows : List TradeRow) : List TradeKey :=
  sortLe tradeKeyLe (distinctVals (rows.map (tradeKey6 hasTifCol)))

/-- The raw rows of one six-column group. -/
def tradeGroup (hasTifCol : Bool) (rows : List TradeRow) (k : TradeKey) :
    List TradeRow :=
  rows.filter (fun r => tradeKey6 hasTifCol r == k)

/-- The value of the five-key `transform("count")` series at raw row index
`i`: the size of the five-key group containing the `i`-th raw row. -/
def count5At (rows : List TradeRow) (i : Nat) : Nat :=
  (rows.filter (fun r =>
    tradeKey5 r == tradeKey5 (rows.getD i ⟨"", "", "", false, "", none, 0, 0⟩))).length

/-- The `i`-th row of the aggregated trades frame: six-key group statistics
`mean(px)`, `sum(sz)`, `usd_volume = mean_px * sum_sz`,
`liquidated_volume = usd_volume where tif == "LiquidationMarket" else 0`,
and the positionally aligned `group_count = count5At rows i`. -/
def tradeAggRowAt (hasTifCol : Bool) (rows : List TradeRow) (date : Int)
    (i : Nat) : TradeAggRow :=
  { key := (tradeKeys hasTifCol rows).getD i ⟨"", "", "", false, "", ""⟩
    mean_px := mean ((tradeGroup hasTifCol rows
      ((tradeKeys hasTifCol rows).getD i ⟨"", "", "", false, "", ""⟩)).map
        (fun r => r.px))
    sum_sz := ((tradeGroup hasTifCol rows
      ((tradeKeys hasTifCol rows).getD i ⟨"", "", "", false, "", ""⟩)).map
        (fun r => r.sz)).sum
    group_count := count5At rows i
    time := date
    usd_volume := mean ((tradeGroup hasTifCol rows
      ((tradeKeys hasTifCol rows).getD i ⟨"", "", "", false, "", ""⟩)).map
        (fun r => r.px)) *
      ((tradeGroup hasTifCol rows
        ((tradeKeys hasTifCol rows).getD i ⟨"", "", "", false, "", ""⟩)).map
          (fun r => r.sz)).sum
    liquidated_volume :=
      if ((tradeKeys hasTifCol rows).getD i ⟨"", "", "", false, "", ""⟩).tif
          == "LiquidationMarket" then
        mean ((tradeGroup hasTifCol rows
          ((tradeKeys hasTifCol rows).getD i ⟨"", "", "", false, "", ""⟩)).map
            (fun r => r.px)) *
          ((tradeGroup hasTifCol rows
            ((tradeKeys hasTifCol rows).getD i ⟨"", "", "", false, "", ""⟩)).map
              (fun r => r.sz)).sum
      else 0 }

/-- The trades aggregation of `update_cache_tables`: one aggregated row per
sorted distinct six-column key. -/
def tradesAgg (hasTifCol : Bool) (rows : List TradeRow) (date : Int) :
    List TradeAggRow :=
  (List.range (tradeKeys hasTifCol rows).length).map
    (tradeAggRowAt hasTifCol rows date)

/-- Failing-input row: five-key twin of the next row, tif `"Gtc"`. -/
def tradeRowGtc : TradeRow :=
  ⟨"alice", "BTC", "B", true, "", some "Gtc", 10, 2⟩

/-- Failing-input row: five-key twin of the previous row, tif
`"LiquidationMarket"`. -/
def tradeRowLiq : TradeRow :=
  ⟨"alice", "BTC", "B", true, "", some "LiquidationMarket", 20, 2⟩

/-- Example rows of the spec's aggregation example (identical keys). -/
def tradeRowP1 : TradeRow := ⟨"A", "X", "buy", true, "", some "Gtc", 10, 2⟩

/-- Second example row of the spec's aggregation example. -/
def tradeRowP2 : TradeRow := ⟨"A", "X", "buy", true, "", some "Gtc", 20, 2⟩

/-- C5 (code bug): on two rows that differ only in tif, the two aggregated
six-key groups each contain exactly one row, yet the code assigns both of
them `group_count = 2` — the count series is computed over only five keys
(tif omitted) and aligned to the aggregated frame by position.  On the
spec's example (identical keys) the remaining reductions are as claimed:
`mean_px = 15`, `sum_sz = 4`, `usd_volume = 60`, and there `group_count`
happens to be the correct 2. -/
theorem claim_C5_trades_group_count :
    ((tradesAgg true [tradeRowGtc, tradeRowLiq] 7).map
        (fun r => r.group_count)) = [2, 2] ∧
    (∀ k ∈ (tradesAgg true [tradeRowGtc, tradeRowLiq] 7).map (fun r => r.key),
      ([tradeRowGtc, tradeRowLiq].filter
        (fun r => tradeKey6 true r == k)).length = 1) ∧
    ((tradesAgg true [tradeRowP1, tradeRowP2] 7).map
        (fun r => (r.mean_px, r.sum_sz, r.usd_volume, r.group_count))) =
      [((15 : ℚ), (4 : ℚ), (60 : ℚ), 2)] := by
  refine ⟨by decide, by decide, ?_⟩
  norm_num [tradesAgg, tradeKeys, tradeAggRowAt, tradeGroup, tradeKey6, effTif,
    tradeKey5, count5At, distinctVals, sortLe, insertLe, tradeKeyLe, mean,
    tradeRowP1, tradeRowP2, List.range_succ, List.range_zero, Function.comp]

end HLStats
